import Mathlib

/-!
Verification of the bundle-transfer core of `pkg/cnab/cnab-to-oci/registry.go`
(porter). We embed the data model and the operations `PullBundle`,
`PushBundle` and `ParseOCIReference` shallowly in Lean. External
collaborators (the cnab-to-oci `remotes` transport and the docker reference
parser) are modelled: the transport as an abstract `RemotesAPI` record passed
to the operations, the parser from the spec's grammar. Each operation
additionally returns a trace of the transport operations and output lines it
performed, so that claims about "what was invoked" and "what was printed"
become statements about the trace.
-/

/-! ### Character classes for the reference grammar -/

def isLowerAlnum (c : Char) : Bool := c.isLower || c.isDigit

def domainChar (c : Char) : Bool := c.isAlphanum || c = '.' || c = '-' || c = ':'

def pathChar (c : Char) : Bool :=
  isLowerAlnum c || c = '.' || c = '_' || c = '-' || c = '/'

def tagChar (c : Char) : Bool := c.isAlphanum || c = '.' || c = '_' || c = '-'

/-! ### Splitting primitives -/

/-- Split a list at the first occurrence of `c`: `breakFirst c (a ++ c :: b) =
some (a, b)` when `c ∉ a`; `none` when `c` does not occur. -/
def breakFirst (c : Char) : List Char → Option (List Char × List Char)
  | [] => none
  | x :: xs =>
    if x = c then some ([], xs)
    else (breakFirst c xs).map (fun p => (x :: p.1, p.2))

/-- Split a list at the last occurrence of `c`. -/
def breakLast (c : Char) (s : List Char) : Option (List Char × List Char) :=
  (breakFirst c s.reverse).map (fun p => (p.2.reverse, p.1.reverse))

/-! ### The reference model -/

/-- Modelled from the spec: the normalized, registry-qualified
`BundleReference` produced by the ReferenceResolver (the code delegates to
`reference.ParseNormalizedNamed` of docker/distribution, an external
collaborator not in this repository): domain, path, and an optional tag
and/or digest. -/
structure NamedRef where
  domain : List Char
  path : List Char
  tag : Option (List Char)
  dgst : Option (List Char)
deriving DecidableEq, Repr

/-- `reference.Domain` on a parsed reference. -/
def refDomain (r : NamedRef) : List Char := r.domain

/-- The `[:tag]` suffix of a reference's string form. -/
def tagPart (r : NamedRef) : List Char :=
  match r.tag with | some t => ':' :: t | none => []

/-- The `[@digest]` suffix of a reference's string form. -/
def dgstPart (r : NamedRef) : List Char :=
  match r.dgst with | some d => '@' :: d | none => []

/-- The canonical string form of a normalized reference
(`reference.Named.String()`): `domain/path[:tag][@digest]`. -/
def refString (r : NamedRef) : List Char :=
  r.domain ++ '/' :: r.path ++ tagPart r ++ dgstPart r

/-- Modelled from the spec: split off the digest part (after the first `@`). -/
def splitDigestPart (s : List Char) : List Char × Option (List Char) :=
  match breakFirst '@' s with
  | some (a, b) => (a, some b)
  | none => (s, none)

/-- Modelled from the spec: split off the tag, the part after the last `:`
provided no `/` follows it. -/
def splitTagPart (base : List Char) : List Char × Option (List Char) :=
  match breakLast ':' base with
  | some (a, b) => if '/' ∈ b then (base, none) else (a, some b)
  | none => (base, none)

/-- Modelled from the spec: default-domain normalization identical to standard
container image reference rules: the first `/`-separated component is the
domain only if it contains `.` or `:` or is `localhost`; otherwise the
default domain `docker.io` applies; `index.docker.io` is canonicalized to
`docker.io`; a bare name on the default domain gets the `library/` prefix. -/
def splitDomainRaw (nameP : List Char) : List Char × List Char :=
  match breakFirst '/' nameP with
  | some (d, rest) =>
    if '.' ∈ d ∨ ':' ∈ d ∨ d = "localhost".data
    then (d, rest) else ("docker.io".data, nameP)
  | none => ("docker.io".data, nameP)

def canonDomain (d : List Char) : List Char :=
  if d = "index.docker.io".data then "docker.io".data else d

def applyLibraryRule (dom rem : List Char) : List Char :=
  if dom = "docker.io".data ∧ '/' ∉ rem then "library/".data ++ rem else rem

def splitDomainPart (nameP : List Char) : List Char × List Char :=
  (canonDomain (splitDomainRaw nameP).1,
   applyLibraryRule (canonDomain (splitDomainRaw nameP).1) (splitDomainRaw nameP).2)

/-- Modelled from the spec: default-tag normalization: a reference with
neither tag nor digest gets the tag `latest`. -/
def applyDefaultTag (t d : Option (List Char)) : Option (List Char) :=
  match t, d with
  | none, none => some "latest".data
  | t, _ => t

def validDomain (d : List Char) : Bool := !d.isEmpty && d.all domainChar

def validPath (p : List Char) : Bool := !p.isEmpty && p.all pathChar

def validTag (t : List Char) : Bool := !t.isEmpty && t.all tagChar

/-- A digest is `algorithm:hex` with a nonempty lowercase-alphanumeric
algorithm and nonempty lowercase-hex payload. -/
def validDigest (d : List Char) : Bool :=
  match breakFirst ':' d with
  | some (a, h) => !a.isEmpty && a.all isLowerAlnum && !h.isEmpty && h.all isLowerAlnum
  | none => false

def optValidTag : Option (List Char) → Bool
  | none => true
  | some t => validTag t

def optValidDigest : Option (List Char) → Bool
  | none => true
  | some d => validDigest d

/-- Modelled from the spec: `reference.ParseNormalizedNamed` — parse a
free-form reference string against the `[REGISTRY/]NAME[:TAG|@DIGEST]`
grammar, applying default-domain and default-tag normalization. Pure; no
I/O. -/
def ParseNormalizedNamed (s : List Char) : Except String NamedRef :=
  let bd := splitDigestPart s
  let nt := splitTagPart bd.1
  let dp := splitDomainPart nt.1
  let t := applyDefaultTag nt.2 bd.2
  if validDomain dp.1 && validPath dp.2 && optValidTag t && optValidDigest bd.2
  then .ok ⟨dp.1, dp.2, t, bd.2⟩
  else .error "invalid reference format"

/-- `ParseOCIReference` from registry.go: delegates to
`reference.ParseNormalizedNamed`. -/
def ParseOCIReference (s : List Char) : Except String NamedRef :=
  ParseNormalizedNamed s

/-! ### Data model: bundle, relocation map, transport API, traces -/

/-- `bundle.BaseImage`: an image reference with its content digest (the
fields registry.go reads). -/
structure BaseImage where
  image : String
  digest : String
deriving DecidableEq, Repr

/-- `bundle.Bundle`: the fields relevant to registry.go: the
invocation-image list and the named images (other metadata abstracted as a
name). -/
structure Bundle where
  name : String
  invocationImages : List BaseImage
  images : List (String × BaseImage)
deriving DecidableEq, Repr

/-- `relocation.ImageRelocationMap`: a map original-reference →
relocated-reference, as an association list. A `none` at an
`Option ImageRelocationMap` position models a nil map/pointer in Go. -/
abbrev ImageRelocationMap := List (String × String)

/-- One observable operation performed by `PullBundle`/`PushBundle`:
resolver construction (with the insecure-registry allowlist it was handed),
the three transport calls, and writes to the output and error streams. -/
inductive Op where
  | createResolverOp (insecureRegistries : List (List Char))
  | pullOp (ref : NamedRef)
  | fixupOp (ref : NamedRef) (reloMap : ImageRelocationMap)
  | pushManifestOp (ref : NamedRef)
  | printOutOp (line : List Char)
  | printErrOp (line : List Char)
deriving DecidableEq, Repr

/-- The external cnab-to-oci `remotes` transport (an external collaborator):
`Pull`, `FixupBundle` and `Push`, as abstract functions. `fixupBundle`
receives the baseline relocation map and returns the updated one; `push`
returns the content digest of the published manifest. -/
structure RemotesAPI where
  pull : NamedRef → Except String (Bundle × ImageRelocationMap)
  fixupBundle : Bundle → NamedRef → ImageRelocationMap → Except String ImageRelocationMap
  push : Bundle → ImageRelocationMap → NamedRef → Except String (List Char)

/-- The errors `PullBundle` can return, one constructor per construction
site in the code: the invalid-tag wrap, the pull wrap, and
`ErrNoContentDigest` (built by `NewErrNoContentDigest` from the image
name). -/
inductive PullError where
  | invalidRef (cause : String)
  | pullFailed (cause : String)
  | noContentDigest (image : String)
deriving DecidableEq, Repr

/-- The result of `PullBundle`: the Go `(bundle.Bundle,
*relocation.ImageRelocationMap, error)` triple, plus a `panicked` outcome
for the unchecked `bun.InvocationImages[0]` index. -/
inductive PullOutcome where
  | ok (bun : Bundle) (reloMap : Option ImageRelocationMap)
  | err (e : PullError)
  | panicked (msg : String)
deriving DecidableEq, Repr

/-- The errors `PushBundle` can return, one constructor per construction
site: the invalid-tag wrap, the fixup wrap, and the push wrap (which carries
the destination tag string, per `errors.Wrapf(err, "error pushing the bundle
to %s", tag)`). -/
inductive PushError where
  | invalidRef (cause : String)
  | fixupFailed (cause : String)
  | pushFailed (tag : List Char) (cause : String)
deriving DecidableEq, Repr

/-- The result of `PushBundle`: the Go `(*relocation.ImageRelocationMap,
error)` pair. A successful push carries only the (possibly nil) relocation
map — the published digest is not part of the return value. -/
inductive PushOutcome where
  | ok (reloMap : Option ImageRelocationMap)
  | err (e : PushError)
deriving DecidableEq, Repr

/-- The `Registry` receiver: the porter context fields registry.go reads
(`r.Debug`; the output streams are modelled by the trace). -/
structure Registry where
  debug : Bool
deriving DecidableEq, Repr

/-! ### The operations -/

/-- `PullBundle` from registry.go: parse the tag, build the
insecure-registry allowlist, optionally print the debug line, pull via the
transport, enforce the content-digest invariant on
`bun.InvocationImages[0]`, and normalize an empty relocation map to nil.
Returns the Go result paired with the trace of performed operations. -/
def PullBundle (api : RemotesAPI) (r : Registry) (tag : List Char)
    (insecureRegistry : Bool) : PullOutcome × List Op :=
  match ParseNormalizedNamed tag with
  | .error e => (.err (.invalidRef e), [])
  | .ok ref =>
    let insecureRegistries : List (List Char) :=
      if insecureRegistry then [refDomain ref] else []
    let debugTrace : List Op :=
      if r.debug then
        [.printErrOp ("Pulling bundle ".data ++ refString ref ++
          (if insecureRegistry then " with --insecure-registry".data else []))]
      else []
    let trace0 := debugTrace ++ [.createResolverOp insecureRegistries, .pullOp ref]
    match api.pull ref with
    | .error e => (.err (.pullFailed e), trace0)
    | .ok (bun, reloMap) =>
      match bun.invocationImages with
      | [] => (.panicked "index out of range [0] with length 0", trace0)
      | invocationImage :: _ =>
        if invocationImage.digest = "" then
          (.err (.noContentDigest invocationImage.image), trace0)
        else if reloMap.length = 0 then
          (.ok bun none, trace0)
        else
          (.ok bun (some reloMap), trace0)

/-- `PushBundle` from registry.go: parse the tag, build the
insecure-registry allowlist and the resolver, initialize a nil relocation
map to an empty one, run fixup, push the manifest, print the success line
with the digest, and normalize an empty relocation map to nil. Returns the
Go result paired with the trace of performed operations. -/
def PushBundle (api : RemotesAPI) (_r : Registry) (bun : Bundle)
    (tag : List Char) (reloMap : Option ImageRelocationMap)
    (insecureRegistry : Bool) : PushOutcome × List Op :=
  match ParseOCIReference tag with
  | .error e => (.err (.invalidRef e), [])
  | .ok ref =>
    let insecureRegistries : List (List Char) :=
      if insecureRegistry then [refDomain ref] else []
    -- Initialize the relocation map if necessary
    let reloMap0 : ImageRelocationMap :=
      match reloMap with
      | none => []
      | some m => m
    let trace0 : List Op :=
      [.createResolverOp insecureRegistries, .fixupOp ref reloMap0]
    match api.fixupBundle bun ref reloMap0 with
    | .error e => (.err (.fixupFailed e), trace0)
    | .ok rm =>
      let trace1 := trace0 ++ [.pushManifestOp ref]
      match api.push bun rm ref with
      | .error e => (.err (.pushFailed tag e), trace1)
      | .ok d =>
        let trace2 := trace1 ++
          [.printOutOp ("Bundle tag ".data ++ refString ref ++
            " pushed successfully, with digest \"".data ++ d ++ "\"".data)]
        if rm.length = 0 then (.ok none, trace2)
        else (.ok (some rm), trace2)

/-- The insecure-registry allowlists handed to resolver constructions in a
trace. -/
def resolverArgs (t : List Op) : List (List (List Char)) :=
  t.filterMap (fun op => match op with
    | .createResolverOp l => some l
    | _ => none)

/-- The relocation maps handed to fixup invocations in a trace. -/
def fixupArgs (t : List Op) : List ImageRelocationMap :=
  t.filterMap (fun op => match op with
    | .fixupOp _ rm => some rm
    | _ => none)

/-- Whether a trace contains a manifest-publish operation. -/
def hasPushManifest (t : List Op) : Bool :=
  t.any (fun op => match op with
    | .pushManifestOp _ => true
    | _ => false)

/-! ### Lemmas about the splitting primitives -/

theorem breakFirst_not_mem (c : Char) (s : List Char) (h : c ∉ s) :
    breakFirst c s = none := by
  induction s with
  | nil => rfl
  | cons x xs ih =>
    have hx : x ≠ c := fun he => h (he ▸ List.mem_cons_self x xs)
    have hxs : c ∉ xs := fun hm => h (List.mem_cons_of_mem x hm)
    simp [breakFirst, hx, ih hxs]

theorem breakFirst_skip (c : Char) (x y : List Char) (h : c ∉ x) :
    breakFirst c (x ++ y) =
      (breakFirst c y).map (fun p => (x ++ p.1, p.2)) := by
  induction x with
  | nil => simp [Option.map_map]
  | cons a as ih =>
    have ha : a ≠ c := fun he => h (he ▸ List.mem_cons_self a as)
    have has : c ∉ as := fun hm => h (List.mem_cons_of_mem a hm)
    rw [List.cons_append]
    simp only [breakFirst, if_neg ha, ih has]
    cases breakFirst c y <;> rfl

theorem breakFirst_append (c : Char) (a b : List Char) (h : c ∉ a) :
    breakFirst c (a ++ c :: b) = some (a, b) := by
  rw [breakFirst_skip c a (c :: b) h]
  simp [breakFirst]

theorem breakLast_not_mem (c : Char) (s : List Char) (h : c ∉ s) :
    breakLast c s = none := by
  rw [breakLast, breakFirst_not_mem c s.reverse (by simpa using h)]
  rfl

theorem breakLast_append (c : Char) (a b : List Char) (h : c ∉ b) :
    breakLast c (a ++ c :: b) = some (a, b) := by
  have hrev : (a ++ c :: b).reverse = b.reverse ++ c :: a.reverse := by
    simp
  rw [breakLast, hrev,
    breakFirst_append c b.reverse a.reverse (by simpa using h)]
  simp

theorem all_not_mem {p : Char → Bool} {l : List Char} (h : l.all p = true)
    {c : Char} (hc : p c = false) : c ∉ l := by
  intro hmem
  have := List.all_eq_true.mp h c hmem
  rw [hc] at this
  exact Bool.false_ne_true this

/-! ### Invariants of normalized references -/

/-- The invariants every reference produced by `ParseNormalizedNamed`
satisfies; they are exactly what is needed for its string form to re-parse
to itself. -/
def GoodRef (r : NamedRef) : Prop :=
  validDomain r.domain = true ∧ validPath r.path = true ∧
  ('.' ∈ r.domain ∨ ':' ∈ r.domain ∨ r.domain = "localhost".data) ∧
  r.domain ≠ "index.docker.io".data ∧
  (r.domain = "docker.io".data → '/' ∈ r.path) ∧
  (∀ t, r.tag = some t → validTag t = true) ∧
  (∀ d, r.dgst = some d → validDigest d = true) ∧
  (r.tag = none → r.dgst ≠ none)

theorem canonDomain_cond (d : List Char)
    (h : '.' ∈ d ∨ ':' ∈ d ∨ d = "localhost".data) :
    '.' ∈ canonDomain d ∨ ':' ∈ canonDomain d ∨
      canonDomain d = "localhost".data := by
  unfold canonDomain
  split
  · left; decide
  · exact h

theorem splitDomainRaw_cond (n : List Char) :
    '.' ∈ (splitDomainRaw n).1 ∨ ':' ∈ (splitDomainRaw n).1 ∨
      (splitDomainRaw n).1 = "localhost".data := by
  unfold splitDomainRaw
  split
  · next d rest heq =>
    split
    · next hc => exact hc
    · exact Or.inl (by decide : '.' ∈ "docker.io".data)
  · exact Or.inl (by decide : '.' ∈ "docker.io".data)

theorem splitDomainPart_cond (n : List Char) :
    '.' ∈ (splitDomainPart n).1 ∨ ':' ∈ (splitDomainPart n).1 ∨
      (splitDomainPart n).1 = "localhost".data :=
  canonDomain_cond _ (splitDomainRaw_cond n)

theorem canonDomain_ne_index (d : List Char) :
    canonDomain d ≠ "index.docker.io".data := by
  unfold canonDomain
  split
  · decide
  · next h => exact h

theorem splitDomainPart_ne_index (n : List Char) :
    (splitDomainPart n).1 ≠ "index.docker.io".data :=
  canonDomain_ne_index _

theorem mem_slash_library (x : List Char) : '/' ∈ "library/".data ++ x :=
  List.mem_append_left x (by decide)

theorem applyLibraryRule_mem (dom rem : List Char)
    (h : dom = "docker.io".data) : '/' ∈ applyLibraryRule dom rem := by
  unfold applyLibraryRule
  split
  · exact mem_slash_library rem
  · next hn => exact of_not_not (fun hm => hn ⟨h, hm⟩)

theorem splitDomainPart_library (n : List Char)
    (h : (splitDomainPart n).1 = "docker.io".data) :
    '/' ∈ (splitDomainPart n).2 :=
  applyLibraryRule_mem _ _ h

theorem applyDefaultTag_eq_none (t d : Option (List Char))
    (h : applyDefaultTag t d = none) : d ≠ none := by
  cases t <;> cases d <;> simp [applyDefaultTag] at h ⊢

/-- Every reference produced by `ParseNormalizedNamed` satisfies the
`GoodRef` invariants. -/
theorem parse_good (s : List Char) (r : NamedRef)
    (h : ParseNormalizedNamed s = .ok r) : GoodRef r := by
  simp only [ParseNormalizedNamed] at h
  split at h
  · next hv =>
    simp only [Bool.and_eq_true] at hv
    obtain ⟨⟨⟨hd, hp⟩, ht⟩, hg⟩ := hv
    cases h
    refine ⟨hd, hp, splitDomainPart_cond _, splitDomainPart_ne_index _,
      fun hdom => splitDomainPart_library _ hdom, ?_, ?_, ?_⟩
    · intro t hteq
      have h2 : optValidTag (some t) = true := by rw [← hteq]; exact ht
      simpa [optValidTag] using h2
    · intro d hdeq
      have h2 : optValidDigest (some d) = true := by rw [← hdeq]; exact hg
      simpa [optValidDigest] using h2
    · intro htn hdn
      exact applyDefaultTag_eq_none _ _ htn hdn
  · exact absurd h (by simp)

/-! ### Roundtrip: the string form of a good reference re-parses to it -/

theorem validDomain_all {d : List Char} (h : validDomain d = true) :
    d.all domainChar = true := by
  rw [validDomain, Bool.and_eq_true] at h; exact h.2

theorem validPath_all {p : List Char} (h : validPath p = true) :
    p.all pathChar = true := by
  rw [validPath, Bool.and_eq_true] at h; exact h.2

theorem validTag_all {t : List Char} (h : validTag t = true) :
    t.all tagChar = true := by
  rw [validTag, Bool.and_eq_true] at h; exact h.2

theorem at_not_mem_base (r : NamedRef)
    (hd : validDomain r.domain = true) (hp : validPath r.path = true)
    (ht : ∀ t, r.tag = some t → validTag t = true) :
    '@' ∉ r.domain ++ '/' :: r.path ++ tagPart r := by
  intro hm
  simp only [List.mem_append, List.mem_cons] at hm
  rcases hm with (h1 | h2 | h3) | h4
  · exact all_not_mem (validDomain_all hd) (by decide) h1
  · exact absurd h2 (by decide)
  · exact all_not_mem (validPath_all hp) (by decide) h3
  · cases htg : r.tag with
    | none => simp [tagPart, htg] at h4
    | some t =>
      simp only [tagPart, htg] at h4
      rcases List.mem_cons.mp h4 with h5 | h6
      · exact absurd h5 (by decide)
      · exact all_not_mem (validTag_all (ht t htg)) (by decide) h6

theorem splitDigestPart_refString (r : NamedRef)
    (hd : validDomain r.domain = true) (hp : validPath r.path = true)
    (ht : ∀ t, r.tag = some t → validTag t = true) :
    splitDigestPart (refString r) =
      (r.domain ++ '/' :: r.path ++ tagPart r, r.dgst) := by
  have hnm := at_not_mem_base r hd hp ht
  cases hdg : r.dgst with
  | none =>
    have hs : refString r = r.domain ++ '/' :: r.path ++ tagPart r := by
      simp [refString, dgstPart, hdg]
    rw [hs]
    unfold splitDigestPart
    rw [breakFirst_not_mem '@' _ hnm]
  | some dg =>
    have hs : refString r =
        (r.domain ++ '/' :: r.path ++ tagPart r) ++ '@' :: dg := by
      simp [refString, dgstPart, hdg]
    rw [hs]
    unfold splitDigestPart
    rw [breakFirst_append '@' _ _ hnm]

theorem splitTagPart_no_colon (d p : List Char) (hp : ':' ∉ p) :
    splitTagPart (d ++ '/' :: p) = (d ++ '/' :: p, none) := by
  unfold splitTagPart breakLast
  have hrev : (d ++ '/' :: p).reverse = p.reverse ++ '/' :: d.reverse := by simp
  rw [hrev, breakFirst_skip ':' p.reverse _ (by simpa using hp)]
  have h1 : breakFirst ':' ('/' :: d.reverse) =
      (breakFirst ':' d.reverse).map (fun q => ('/' :: q.1, q.2)) := by
    simp [breakFirst]
  rw [h1]
  cases hbf : breakFirst ':' d.reverse with
  | none => simp
  | some q =>
    have hmem : '/' ∈ (p.reverse ++ '/' :: q.1).reverse := by simp
    simp [hmem]

theorem splitTagPart_refString (r : NamedRef)
    (hp : validPath r.path = true)
    (ht : ∀ t, r.tag = some t → validTag t = true) :
    splitTagPart (r.domain ++ '/' :: r.path ++ tagPart r) =
      (r.domain ++ '/' :: r.path, r.tag) := by
  cases htg : r.tag with
  | some t =>
    have hnc : ':' ∉ t := all_not_mem (validTag_all (ht t htg)) (by decide)
    have hns : '/' ∉ t := all_not_mem (validTag_all (ht t htg)) (by decide)
    have hs : r.domain ++ '/' :: r.path ++ tagPart r =
        (r.domain ++ '/' :: r.path) ++ ':' :: t := by
      simp [tagPart, htg]
    rw [hs]
    unfold splitTagPart
    rw [breakLast_append ':' _ _ hnc]
    simp [hns]
  | none =>
    have hs : r.domain ++ '/' :: r.path ++ tagPart r =
        r.domain ++ '/' :: r.path := by
      simp [tagPart, htg]
    rw [hs]
    exact splitTagPart_no_colon r.domain r.path
      (all_not_mem (validPath_all hp) (by decide))

theorem splitDomainPart_refString (r : NamedRef)
    (hd : validDomain r.domain = true)
    (hcond : '.' ∈ r.domain ∨ ':' ∈ r.domain ∨ r.domain = "localhost".data)
    (hni : r.domain ≠ "index.docker.io".data)
    (hlib : r.domain = "docker.io".data → '/' ∈ r.path) :
    splitDomainPart (r.domain ++ '/' :: r.path) = (r.domain, r.path) := by
  have hns : '/' ∉ r.domain := all_not_mem (validDomain_all hd) (by decide)
  have hraw : splitDomainRaw (r.domain ++ '/' :: r.path) = (r.domain, r.path) := by
    unfold splitDomainRaw
    rw [breakFirst_append '/' _ _ hns]
    simp [hcond]
  have hcanon : canonDomain r.domain = r.domain := by
    unfold canonDomain; rw [if_neg hni]
  have hlibr : applyLibraryRule r.domain r.path = r.path := by
    unfold applyLibraryRule
    by_cases hdom : r.domain = "docker.io".data
    · exact if_neg (fun hc => hc.2 (hlib hdom))
    · exact if_neg (fun hc => hdom hc.1)
  unfold splitDomainPart
  rw [hraw, hcanon, hlibr]

theorem applyDefaultTag_id (r : NamedRef) (h : r.tag = none → r.dgst ≠ none) :
    applyDefaultTag r.tag r.dgst = r.tag := by
  cases htg : r.tag with
  | some t => cases r.dgst <;> rfl
  | none =>
    cases hdg : r.dgst with
    | none => exact absurd hdg (h htg)
    | some d => rfl

theorem optValidTag_of (r : NamedRef)
    (ht : ∀ t, r.tag = some t → validTag t = true) :
    optValidTag r.tag = true := by
  cases h : r.tag with
  | none => rfl
  | some t => exact ht t h

theorem optValidDigest_of (r : NamedRef)
    (hd : ∀ d, r.dgst = some d → validDigest d = true) :
    optValidDigest r.dgst = true := by
  cases h : r.dgst with
  | none => rfl
  | some d => exact hd d h

/-- The string form of a reference satisfying the `GoodRef` invariants
parses back to that same reference. -/
theorem good_roundtrip (r : NamedRef) (hg : GoodRef r) :
    ParseNormalizedNamed (refString r) = .ok r := by
  obtain ⟨hd, hp, hcond, hni, hlib, ht, hdg, htd⟩ := hg
  have h1 := splitDigestPart_refString r hd hp ht
  have h2 := splitTagPart_refString r hp ht
  have h3 := splitDomainPart_refString r hd hcond hni hlib
  have h4 := applyDefaultTag_id r htd
  simp only [ParseNormalizedNamed, h1, h2, h3, h4, hd, hp,
    optValidTag_of r ht, optValidDigest_of r hdg, Bool.and_self, if_pos]

/-! ### Concrete fixtures used by the witnesses -/

def imgNoDigest : BaseImage := ⟨"example/app-invoc", ""⟩

def imgGood : BaseImage := ⟨"example/app-invoc", "sha256:aaa"⟩

def bunNoDigest : Bundle := ⟨"mybuns", [imgNoDigest], []⟩

def bunGood : Bundle := ⟨"mybuns", [imgGood], []⟩

def bunNoInvoc : Bundle := ⟨"mybuns", [], []⟩

def regQuiet : Registry := ⟨false⟩

def apiNoDigest : RemotesAPI :=
  ⟨fun _ => .ok (bunNoDigest, []), fun _ _ rm => .ok rm,
   fun _ _ _ => .ok "sha256:d".data⟩

def apiGood : RemotesAPI :=
  ⟨fun _ => .ok (bunGood, [("orig/img:v1", "reg/img@sha256:bbb")]),
   fun _ _ rm => .ok rm, fun _ _ _ => .ok "sha256:d1".data⟩

def apiGood2 : RemotesAPI :=
  ⟨fun _ => .ok (bunGood, [("orig/img:v1", "reg/img@sha256:bbb")]),
   fun _ _ rm => .ok rm, fun _ _ _ => .ok "sha256:d2".data⟩

def apiNoInvoc : RemotesAPI :=
  ⟨fun _ => .ok (bunNoInvoc, []), fun _ _ rm => .ok rm,
   fun _ _ _ => .ok "sha256:d".data⟩

def apiFixFail : RemotesAPI :=
  ⟨fun _ => .ok (bunGood, []), fun _ _ _ => .error "copy failed",
   fun _ _ _ => .ok "sha256:d".data⟩

def apiPushFail : RemotesAPI :=
  ⟨fun _ => .ok (bunGood, []), fun _ _ rm => .ok rm,
   fun _ _ _ => .error "denied"⟩

def refUbuntu : NamedRef :=
  ⟨"docker.io".data, "library/ubuntu".data, some "latest".data, none⟩

/-! ### The claims -/

/-- C8: reference normalization is idempotent: if a string parses to a
normalized reference, the string form of that reference parses back to the
same reference. -/
theorem normalize_idempotent (s : List Char) (ref : NamedRef)
    (h : ParseOCIReference s = .ok ref) :
    ParseOCIReference (refString ref) = .ok ref :=
  good_roundtrip ref (parse_good s ref h)

/-- Witness for C8 at the concrete string "ubuntu". -/
theorem normalize_idempotent_witness :
    ParseOCIReference "ubuntu".data = .ok refUbuntu ∧
    ParseOCIReference (refString refUbuntu) = .ok refUbuntu :=
  ⟨rfl, normalize_idempotent "ubuntu".data refUbuntu rfl⟩

/-- C1: for every pull where the retrieved bundle's primary (first)
invocation image has an empty content digest, `PullBundle` fails with the
`ErrNoContentDigest` error built by `NewErrNoContentDigest` from that image
name, regardless of the bundle's other contents, and that error is distinct
from the generic pull-failure and invalid-reference errors. -/
theorem pull_empty_digest_fails (api : RemotesAPI) (reg : Registry)
    (tag : List Char) (insec : Bool) (ref : NamedRef) (bun : Bundle)
    (rm : ImageRelocationMap) (img : BaseImage) (rest : List BaseImage)
    (hparse : ParseNormalizedNamed tag = .ok ref)
    (hpull : api.pull ref = .ok (bun, rm))
    (hinv : bun.invocationImages = img :: rest)
    (hdg : img.digest = "") :
    (PullBundle api reg tag insec).1 = .err (.noContentDigest img.image) ∧
    (∀ c, PullError.noContentDigest img.image ≠ .pullFailed c) ∧
    (∀ c, PullError.noContentDigest img.image ≠ .invalidRef c) := by
  refine ⟨?_, ?_, ?_⟩
  · simp [PullBundle, hparse, hpull, hinv, hdg]
  · intro c h
    cases h
  · intro c h
    cases h

/-- Witness for C1: a transport returning a digestless primary image. -/
theorem pull_empty_digest_fails_witness :
    (PullBundle apiNoDigest regQuiet "ubuntu".data false).1 =
      .err (.noContentDigest "example/app-invoc") :=
  (pull_empty_digest_fails apiNoDigest regQuiet "ubuntu".data false
    refUbuntu bunNoDigest [] imgNoDigest [] rfl rfl rfl rfl).1

/-- C9: after a successful transport pull, `PullBundle` indexes the first
invocation image without a bounds check: it panics exactly when the pulled
bundle's invocation-image list is empty, and never panics when it is
non-empty. -/
theorem pull_first_invocation_unchecked (api : RemotesAPI) (reg : Registry)
    (tag : List Char) (insec : Bool) (ref : NamedRef) (bun : Bundle)
    (rm : ImageRelocationMap)
    (hparse : ParseNormalizedNamed tag = .ok ref)
    (hpull : api.pull ref = .ok (bun, rm)) :
    (bun.invocationImages = [] →
      (PullBundle api reg tag insec).1 =
        .panicked "index out of range [0] with length 0") ∧
    (bun.invocationImages ≠ [] →
      ∀ m, (PullBundle api reg tag insec).1 ≠ .panicked m) := by
  constructor
  · intro hinv
    simp [PullBundle, hparse, hpull, hinv]
  · intro hinv m
    cases hinvEq : bun.invocationImages with
    | nil => exact absurd hinvEq hinv
    | cons img rest =>
      simp only [PullBundle, hparse, hpull, hinvEq]
      split
      · simp
      · split <;> simp

/-- Witness for C9: a transport returning a bundle with no invocation
images makes `PullBundle` panic. -/
theorem pull_first_invocation_unchecked_witness :
    (PullBundle apiNoInvoc regQuiet "ubuntu".data false).1 =
      .panicked "index out of range [0] with length 0" :=
  (pull_first_invocation_unchecked apiNoInvoc regQuiet "ubuntu".data false
    refUbuntu bunNoInvoc [] rfl rfl).1 rfl

theorem resolverArgs_append (x y : List Op) :
    resolverArgs (x ++ y) = resolverArgs x ++ resolverArgs y :=
  List.filterMap_append x y _

theorem resolverArgs_debugTrace (b : Bool) (line : List Char) :
    resolverArgs (if b then [Op.printErrOp line] else []) = [] := by
  cases b <;> simp [resolverArgs]

theorem fixupArgs_append (x y : List Op) :
    fixupArgs (x ++ y) = fixupArgs x ++ fixupArgs y :=
  List.filterMap_append x y _

/-- C3: on every successful pull and every successful push, an empty
relocation map is returned as absent (nil) and a non-empty one as a present
map. -/
theorem relocation_map_absent_iff_empty (apiP apiQ : RemotesAPI)
    (reg : Registry) (tag : List Char) (insec : Bool) (ref : NamedRef)
    (bun bunQ : Bundle) (rm rmQ : ImageRelocationMap)
    (img : BaseImage) (rest : List BaseImage)
    (reloIn : Option ImageRelocationMap) (d : List Char)
    (hparse : ParseNormalizedNamed tag = .ok ref)
    (hpull : apiP.pull ref = .ok (bun, rm))
    (hinv : bun.invocationImages = img :: rest)
    (hdg : img.digest ≠ "")
    (hfix : apiQ.fixupBundle bunQ ref
      (match reloIn with | none => [] | some m => m) = .ok rmQ)
    (hpush : apiQ.push bunQ rmQ ref = .ok d) :
    (rm = [] → (PullBundle apiP reg tag insec).1 = .ok bun none) ∧
    (rm ≠ [] → (PullBundle apiP reg tag insec).1 = .ok bun (some rm)) ∧
    (rmQ = [] → (PushBundle apiQ reg bunQ tag reloIn insec).1 = .ok none) ∧
    (rmQ ≠ [] →
      (PushBundle apiQ reg bunQ tag reloIn insec).1 = .ok (some rmQ)) := by
  refine ⟨?_, ?_, ?_, ?_⟩
  · intro h
    simp [PullBundle, hparse, hpull, hinv, hdg, h]
  · intro h
    simp [PullBundle, hparse, hpull, hinv, hdg, List.length_eq_zero, h]
  · intro h
    subst h
    simp [PushBundle, ParseOCIReference, hparse, hfix, hpush]
  · intro h
    simp [PushBundle, ParseOCIReference, hparse, hfix, hpush,
      List.length_eq_zero, h]

/-- Witness for C3: a pull whose relocation map is non-empty returns it
present, and so does a push whose fixup result is non-empty. -/
theorem relocation_map_absent_iff_empty_witness :
    (PullBundle apiGood regQuiet "ubuntu".data false).1 =
      .ok bunGood (some [("orig/img:v1", "reg/img@sha256:bbb")]) ∧
    (PushBundle apiGood regQuiet bunGood "ubuntu".data
        (some [("orig/img:v1", "reg/img@sha256:bbb")]) false).1 =
      .ok (some [("orig/img:v1", "reg/img@sha256:bbb")]) := by
  have h := relocation_map_absent_iff_empty apiGood apiGood regQuiet
    "ubuntu".data false refUbuntu bunGood bunGood
    [("orig/img:v1", "reg/img@sha256:bbb")]
    [("orig/img:v1", "reg/img@sha256:bbb")] imgGood []
    (some [("orig/img:v1", "reg/img@sha256:bbb")]) "sha256:d1".data
    rfl rfl rfl (by decide) rfl rfl
  exact ⟨h.2.1 (by decide), h.2.2.2 (by decide)⟩

/-- C2 is false on the code: `PushBundle` returns only the relocation map
and an error — two pushes identical but for the published digest
("sha256:d1" vs "sha256:d2") both succeed and return the very same value,
so the digest is not part of the result handed to the caller. -/
theorem push_digest_not_in_result :
    (PushBundle apiGood regQuiet bunGood "ubuntu".data none false).1 =
      (PushBundle apiGood2 regQuiet bunGood "ubuntu".data none false).1 ∧
    (PushBundle apiGood regQuiet bunGood "ubuntu".data none false).1 =
      .ok none ∧
    "sha256:d1".data ≠ "sha256:d2".data :=
  ⟨rfl, rfl, by decide⟩

/-- C2 (amended): a successful push returns the (absent-if-empty)
relocation map with no error; the published digest is not part of the
return value but is written to the output stream in the success line. -/
theorem push_returns_map_and_prints_digest (api : RemotesAPI)
    (reg : Registry) (bun : Bundle) (tag : List Char)
    (reloIn : Option ImageRelocationMap) (insec : Bool) (ref : NamedRef)
    (rm : ImageRelocationMap) (d : List Char)
    (hparse : ParseOCIReference tag = .ok ref)
    (hfix : api.fixupBundle bun ref
      (match reloIn with | none => [] | some m => m) = .ok rm)
    (hpush : api.push bun rm ref = .ok d) :
    (PushBundle api reg bun tag reloIn insec).1 =
      (if rm.length = 0 then .ok none else .ok (some rm)) ∧
    Op.printOutOp ("Bundle tag ".data ++ refString ref ++
      " pushed successfully, with digest \"".data ++ d ++ "\"".data) ∈
      (PushBundle api reg bun tag reloIn insec).2 := by
  constructor
  · simp only [PushBundle, hparse, hfix, hpush]
    split
    · next h => simp [h]
    · next h => simp [h]
  · simp only [PushBundle, hparse, hfix, hpush]
    split
    · simp
    · simp

/-- Witness for the amended C2. -/
theorem push_returns_map_and_prints_digest_witness :
    (PushBundle apiGood regQuiet bunGood "ubuntu".data none false).1 =
      .ok none ∧
    Op.printOutOp ("Bundle tag ".data ++ refString refUbuntu ++
      " pushed successfully, with digest \"".data ++ "sha256:d1".data ++
      "\"".data) ∈
      (PushBundle apiGood regQuiet bunGood "ubuntu".data none false).2 := by
  have h := push_returns_map_and_prints_digest apiGood regQuiet bunGood
    "ubuntu".data none false refUbuntu [] "sha256:d1".data rfl rfl rfl
  exact ⟨h.1, h.2⟩

/-- C4: a fixup failure aborts the push with the fixup-context error and no
manifest-publish operation is ever invoked; a manifest-publish failure is
reported with the destination tag. -/
theorem push_failure_policy (api : RemotesAPI) (reg : Registry)
    (bun : Bundle) (tag : List Char) (reloIn : Option ImageRelocationMap)
    (insec : Bool) (ref : NamedRef)
    (hparse : ParseOCIReference tag = .ok ref) :
    (∀ e, api.fixupBundle bun ref
        (match reloIn with | none => [] | some m => m) = .error e →
      (PushBundle api reg bun tag reloIn insec).1 = .err (.fixupFailed e) ∧
      hasPushManifest (PushBundle api reg bun tag reloIn insec).2 = false) ∧
    (∀ rm c, api.fixupBundle bun ref
        (match reloIn with | none => [] | some m => m) = .ok rm →
      api.push bun rm ref = .error c →
      (PushBundle api reg bun tag reloIn insec).1 =
        .err (.pushFailed tag c)) := by
  constructor
  · intro e hfix
    constructor
    · simp [PushBundle, hparse, hfix]
    · simp [PushBundle, hparse, hfix, hasPushManifest]
  · intro rm c hfix hpush
    simp [PushBundle, hparse, hfix, hpush]

/-- Witness for C4: a failing fixup aborts with no publish; a failing
publish names the destination tag. -/
theorem push_failure_policy_witness :
    ((PushBundle apiFixFail regQuiet bunGood "ubuntu".data none false).1 =
        .err (.fixupFailed "copy failed") ∧
      hasPushManifest
        (PushBundle apiFixFail regQuiet bunGood "ubuntu".data none false).2 =
        false) ∧
    (PushBundle apiPushFail regQuiet bunGood "ubuntu".data none false).1 =
      .err (.pushFailed "ubuntu".data "denied") := by
  constructor
  · exact (push_failure_policy apiFixFail regQuiet bunGood "ubuntu".data
      none false refUbuntu rfl).1 "copy failed" rfl
  · exact (push_failure_policy apiPushFail regQuiet bunGood "ubuntu".data
      none false refUbuntu rfl).2 [] "denied" rfl rfl

/-- C5: the insecure-registry allowlist handed to resolver construction is
exactly the parsed reference's domain when the insecure flag is set and is
empty otherwise, in both pull and push. -/
theorem insecure_allowlist_scoped (api : RemotesAPI) (reg : Registry)
    (bun : Bundle) (tag : List Char) (reloIn : Option ImageRelocationMap)
    (insec : Bool) (ref : NamedRef)
    (hparse : ParseNormalizedNamed tag = .ok ref) :
    resolverArgs (PullBundle api reg tag insec).2 =
      [if insec then [refDomain ref] else []] ∧
    resolverArgs (PushBundle api reg bun tag reloIn insec).2 =
      [if insec then [refDomain ref] else []] := by
  constructor
  · simp only [PullBundle, hparse]
    repeat' split
    all_goals
      simp [resolverArgs_append, resolverArgs_debugTrace, resolverArgs]
  · simp only [PushBundle, ParseOCIReference, hparse]
    repeat' split
    all_goals
      simp [resolverArgs_append, resolverArgs]

/-- Witness for C5 with the insecure flag set. -/
theorem insecure_allowlist_scoped_witness :
    resolverArgs (PullBundle apiGood regQuiet "ubuntu".data true).2 =
      [[refDomain refUbuntu]] ∧
    resolverArgs
      (PushBundle apiGood regQuiet bunGood "ubuntu".data none true).2 =
      [[refDomain refUbuntu]] := by
  have h := insecure_allowlist_scoped apiGood regQuiet bunGood "ubuntu".data
    none true refUbuntu rfl
  exact ⟨h.1, h.2⟩

/-- C6: a push called with a nil relocation map hands fixup an initialized,
empty concrete map: the only fixup invocation in the trace receives the
empty map. -/
theorem push_nil_map_initialized (api : RemotesAPI) (reg : Registry)
    (bun : Bundle) (tag : List Char) (insec : Bool) (ref : NamedRef)
    (hparse : ParseOCIReference tag = .ok ref) :
    fixupArgs (PushBundle api reg bun tag none insec).2 = [[]] := by
  simp only [PushBundle, hparse]
  repeat' split
  all_goals simp [fixupArgs_append, fixupArgs]

/-- Witness for C6. -/
theorem push_nil_map_initialized_witness :
    fixupArgs
      (PushBundle apiGood regQuiet bunGood "ubuntu".data none false).2 =
      [[]] :=
  push_nil_map_initialized apiGood regQuiet bunGood "ubuntu".data false
    refUbuntu rfl

/-- C7: a tag string that does not parse makes both `PullBundle` and
`PushBundle` fail immediately with the invalid-reference wrap, with an
empty trace: no resolver is constructed and no transport operation runs. -/
theorem invalid_ref_fails_before_transport (api : RemotesAPI)
    (reg : Registry) (bun : Bundle) (tag : List Char)
    (reloIn : Option ImageRelocationMap) (insec : Bool) (e : String)
    (hparse : ParseNormalizedNamed tag = .error e) :
    PullBundle api reg tag insec = (.err (.invalidRef e), []) ∧
    PushBundle api reg bun tag reloIn insec = (.err (.invalidRef e), []) := by
  constructor
  · simp [PullBundle, hparse]
  · simp [PushBundle, ParseOCIReference, hparse]

/-- Witness for C7 at the malformed tag "UPPER" (uppercase path). -/
theorem invalid_ref_fails_before_transport_witness :
    PullBundle apiGood regQuiet "UPPER".data false =
      (.err (.invalidRef "invalid reference format"), []) ∧
    PushBundle apiGood regQuiet bunGood "UPPER".data none false =
      (.err (.invalidRef "invalid reference format"), []) :=
  invalid_ref_fails_before_transport apiGood regQuiet bunGood "UPPER".data
    none false "invalid reference format" rfl

/-- C10: `PushBundle` behaves identically on a nil relocation map and on a
present-but-empty one: result and trace coincide for all inputs. -/
theorem push_nil_eq_empty_map (api : RemotesAPI) (reg : Registry)
    (bun : Bundle) (tag : List Char) (insec : Bool) :
    PushBundle api reg bun tag none insec =
      PushBundle api reg bun tag (some []) insec := rfl
